import Mathlib

/-!
Verification development for the runar examples repository.

The repository's source files are thin example clients of a service-host
subsystem (the "Node Core": Value payloads, a service Registry, an Event Bus,
and request dispatch on a Node).  The host itself lives in external crates
(`kagi_node` / `runar_node` / `runar_common`) and is not part of the sources,
so those parts are modelled here from the specification's words; the service
handlers that do appear in the sources (the `increment` action of
`DataProcessorService`, the task bookkeeping of `TaskManagerService`, the
`transform` action) are embedded directly from the source files.

Machine integers of the source (`u32` counters) are modelled as `Nat` with an
explicit `% 2 ^ 32` where the source would wrap; the `f64` payload numbers are
modelled as `Int` because no claim in scope performs floating-point
arithmetic on them (they are only stored, routed and compared).
-/

/-- Modelled from the spec: the tagged-union payload type `ValueType`
(§2, §3 "Value"): null, bool, number, string, bytes, ordered array,
ordered key→value map.  Maps are ordered association lists, so structural
equality preserves key order. -/
inductive ValueType where
  | null : ValueType
  | bool (b : Bool) : ValueType
  | number (n : Int) : ValueType
  | str (s : String) : ValueType
  | bytes (bs : List Nat) : ValueType
  | array (xs : List ValueType) : ValueType
  | map (kvs : List (String × ValueType)) : ValueType

/-- Modelled from the spec: field lookup on a map Value; `none` on a
non-map Value or a missing key (§4.1, §9 "vmap"). -/
def ValueType.getField (v : ValueType) (k : String) : Option ValueType :=
  match v with
  | .map kvs => kvs.lookup k
  | _ => none

/-- Modelled from the spec: lenient string extraction with a caller default
(`get_string(value, key, default)`, §4.1/§9): a missing or mismatched field
returns the default rather than erroring. -/
def get_string (v : ValueType) (k : String) (d : String) : String :=
  match v.getField k with
  | some (.str s) => s
  | _ => d

/-- Modelled from the spec: lenient number extraction with a caller default. -/
def get_number (v : ValueType) (k : String) (d : Int) : Int :=
  match v.getField k with
  | some (.number n) => n
  | _ => d

/-- Modelled from the spec: lenient bool extraction with a caller default. -/
def get_bool (v : ValueType) (k : String) (d : Bool) : Bool :=
  match v.getField k with
  | some (.bool b) => b
  | _ => d

/-- The field `k` of `v` exists and is a string. -/
def hasStringField (v : ValueType) (k : String) : Prop :=
  ∃ s, v.getField k = some (.str s)

/-- The field `k` of `v` exists and is a number. -/
def hasNumberField (v : ValueType) (k : String) : Prop :=
  ∃ n, v.getField k = some (.number n)

/-- The field `k` of `v` exists and is a bool. -/
def hasBoolField (v : ValueType) (k : String) : Prop :=
  ∃ b, v.getField k = some (.bool b)

instance (v : ValueType) (k : String) : Decidable (hasStringField v k) := by
  unfold hasStringField
  match h : v.getField k with
  | some (.str s) => exact .isTrue ⟨s, rfl⟩
  | some .null | some (.bool _) | some (.number _) | some (.bytes _)
  | some (.array _) | some (.map _) | none =>
      refine .isFalse ?_
      rintro ⟨s, hs⟩
      simp at hs

instance (v : ValueType) (k : String) : Decidable (hasNumberField v k) := by
  unfold hasNumberField
  match h : v.getField k with
  | some (.number n) => exact .isTrue ⟨n, rfl⟩
  | some .null | some (.bool _) | some (.str _) | some (.bytes _)
  | some (.array _) | some (.map _) | none =>
      refine .isFalse ?_
      rintro ⟨n, hn⟩
      simp at hn

instance (v : ValueType) (k : String) : Decidable (hasBoolField v k) := by
  unfold hasBoolField
  match h : v.getField k with
  | some (.bool b) => exact .isTrue ⟨b, rfl⟩
  | some .null | some (.number _) | some (.str _) | some (.bytes _)
  | some (.array _) | some (.map _) | none =>
      refine .isFalse ?_
      rintro ⟨b, hb⟩
      simp at hb

theorem get_string_default (v : ValueType) (k : String) (d : String)
    (hmiss : ¬ hasStringField v k) : get_string v k d = d := by
  unfold get_string
  match h : v.getField k with
  | some (.str s) => exact absurd ⟨s, h⟩ hmiss
  | some .null | some (.bool _) | some (.number _) | some (.bytes _)
  | some (.array _) | some (.map _) | none => rfl

theorem get_number_default (v : ValueType) (k : String) (d : Int)
    (hmiss : ¬ hasNumberField v k) : get_number v k d = d := by
  unfold get_number
  match h : v.getField k with
  | some (.number n) => exact absurd ⟨n, h⟩ hmiss
  | some .null | some (.bool _) | some (.str _) | some (.bytes _)
  | some (.array _) | some (.map _) | none => rfl

theorem get_bool_default (v : ValueType) (k : String) (d : Bool)
    (hmiss : ¬ hasBoolField v k) : get_bool v k d = d := by
  unfold get_bool
  match h : v.getField k with
  | some (.bool b) => exact absurd ⟨b, h⟩ hmiss
  | some .null | some (.number _) | some (.str _) | some (.bytes _)
  | some (.array _) | some (.map _) | none => rfl

/-- Modelled from the spec: the wire form of a Value (§8 "serializing to wire
form and back").  The spec leaves the byte-level format abstract; this token
stream realizes it: one tag token per scalar, arrays and maps prefixed with
their length, each map entry prefixed with its key. -/
inductive WireToken where
  | wNull : WireToken
  | wBool (b : Bool) : WireToken
  | wNum (n : Int) : WireToken
  | wStr (s : String) : WireToken
  | wBytes (bs : List Nat) : WireToken
  | wArr (n : Nat) : WireToken
  | wMap (n : Nat) : WireToken
  | wKey (k : String) : WireToken

mutual

/-- Modelled from the spec: serialize a Value to its wire form. -/
def serializeValue : ValueType → List WireToken
  | .null => [.wNull]
  | .bool b => [.wBool b]
  | .number n => [.wNum n]
  | .str s => [.wStr s]
  | .bytes bs => [.wBytes bs]
  | .array xs => .wArr xs.length :: serializeArray xs
  | .map kvs => .wMap kvs.length :: serializeEntries kvs

/-- Wire form of the elements of an array, in insertion order. -/
def serializeArray : List ValueType → List WireToken
  | [] => []
  | x :: xs => serializeValue x ++ serializeArray xs

/-- Wire form of the entries of a map, in key order. -/
def serializeEntries : List (String × ValueType) → List WireToken
  | [] => []
  | (k, x) :: rest => .wKey k :: (serializeValue x ++ serializeEntries rest)

end

mutual

/-- Decode one Value from a token stream; `fuel` bounds the nesting depth. -/
def decodeValue : Nat → List WireToken → Option (ValueType × List WireToken)
  | 0, _ => none
  | _ + 1, [] => none
  | _ + 1, .wNull :: r => some (.null, r)
  | _ + 1, .wBool b :: r => some (.bool b, r)
  | _ + 1, .wNum n :: r => some (.number n, r)
  | _ + 1, .wStr s :: r => some (.str s, r)
  | _ + 1, .wBytes bs :: r => some (.bytes bs, r)
  | f + 1, .wArr n :: r =>
      match decodeArray f n r with
      | some (xs, r2) => some (.array xs, r2)
      | none => none
  | f + 1, .wMap n :: r =>
      match decodeEntries f n r with
      | some (kvs, r2) => some (.map kvs, r2)
      | none => none
  | _ + 1, .wKey _ :: _ => none
termination_by f _ => (f, 0)

/-- Decode `n` array elements from a token stream. -/
def decodeArray : Nat → Nat → List WireToken → Option (List ValueType × List WireToken)
  | _, 0, r => some ([], r)
  | f, n + 1, r =>
      match decodeValue f r with
      | some (x, r2) =>
          match decodeArray f n r2 with
          | some (xs, r3) => some (x :: xs, r3)
          | none => none
      | none => none
termination_by f n _ => (f, n + 1)

/-- Decode `n` map entries from a token stream. -/
def decodeEntries : Nat → Nat → List WireToken →
    Option (List (String × ValueType) × List WireToken)
  | _, 0, r => some ([], r)
  | f, n + 1, .wKey k :: r =>
      match decodeValue f r with
      | some (x, r2) =>
          match decodeEntries f n r2 with
          | some (kvs, r3) => some ((k, x) :: kvs, r3)
          | none => none
      | none => none
  | _, _ + 1, _ => none
termination_by f n _ => (f, n + 1)

end

mutual

/-- Nesting depth of a Value, the fuel needed to decode it. -/
def vdepth : ValueType → Nat
  | .array xs => ldepth xs + 1
  | .map kvs => edepth kvs + 1
  | _ => 1

/-- Greatest nesting depth among array elements. -/
def ldepth : List ValueType → Nat
  | [] => 0
  | x :: xs => max (vdepth x) (ldepth xs)

/-- Greatest nesting depth among map entry values. -/
def edepth : List (String × ValueType) → Nat
  | [] => 0
  | (_, x) :: rest => max (vdepth x) (edepth rest)

end

mutual

theorem decodeValue_serializeValue (v : ValueType) (f : Nat) (rest : List WireToken)
    (h : vdepth v ≤ f) :
    decodeValue f (serializeValue v ++ rest) = some (v, rest) := by
  obtain ⟨g, rfl⟩ : ∃ g, f = g + 1 := by
    cases v <;> simp [vdepth] at h <;> exact ⟨f - 1, by omega⟩
  cases v with
  | null => simp [serializeValue, decodeValue]
  | bool b => simp [serializeValue, decodeValue]
  | number n => simp [serializeValue, decodeValue]
  | str s => simp [serializeValue, decodeValue]
  | bytes bs => simp [serializeValue, decodeValue]
  | array xs =>
      have hg : ldepth xs ≤ g := by simp [vdepth] at h; omega
      have e := decodeArray_serializeArray xs g rest hg
      simp [serializeValue, decodeValue, e]
  | map kvs =>
      have hg : edepth kvs ≤ g := by simp [vdepth] at h; omega
      have e := decodeEntries_serializeEntries kvs g rest hg
      simp [serializeValue, decodeValue, e]

theorem decodeArray_serializeArray (xs : List ValueType) (f : Nat) (rest : List WireToken)
    (h : ldepth xs ≤ f) :
    decodeArray f xs.length (serializeArray xs ++ rest) = some (xs, rest) := by
  cases xs with
  | nil => simp [serializeArray, decodeArray]
  | cons x xs =>
      have h1 : vdepth x ≤ f := le_trans (le_max_left _ _) (by simpa [ldepth] using h)
      have h2 : ldepth xs ≤ f := le_trans (le_max_right _ _) (by simpa [ldepth] using h)
      have e1 := decodeValue_serializeValue x f (serializeArray xs ++ rest) h1
      have e2 := decodeArray_serializeArray xs f rest h2
      simp [serializeArray, decodeArray, List.append_assoc, e1, e2]

theorem decodeEntries_serializeEntries (kvs : List (String × ValueType)) (f : Nat)
    (rest : List WireToken) (h : edepth kvs ≤ f) :
    decodeEntries f kvs.length (serializeEntries kvs ++ rest) = some (kvs, rest) := by
  cases kvs with
  | nil => simp [serializeEntries, decodeEntries]
  | cons kv rest2 =>
      obtain ⟨k, x⟩ := kv
      have h1 : vdepth x ≤ f := le_trans (le_max_left _ _) (by simpa [edepth] using h)
      have h2 : edepth rest2 ≤ f := le_trans (le_max_right _ _) (by simpa [edepth] using h)
      have e1 := decodeValue_serializeValue x f (serializeEntries rest2 ++ rest) h1
      have e2 := decodeEntries_serializeEntries rest2 f rest h2
      simp [serializeEntries, decodeEntries, List.append_assoc, e1, e2]

end

mutual

theorem vdepth_le_serialized_length (v : ValueType) :
    vdepth v ≤ (serializeValue v).length := by
  cases v with
  | array xs =>
      have := ldepth_le_serialized_length xs
      simp [vdepth, serializeValue]
      omega
  | map kvs =>
      have := edepth_le_serialized_length kvs
      simp [vdepth, serializeValue]
      omega
  | null | bool b | number n | str s | bytes bs => simp [vdepth, serializeValue]

theorem ldepth_le_serialized_length (xs : List ValueType) :
    ldepth xs ≤ (serializeArray xs).length := by
  cases xs with
  | nil => simp [ldepth, serializeArray]
  | cons x xs =>
      have h1 := vdepth_le_serialized_length x
      have h2 := ldepth_le_serialized_length xs
      simp [ldepth, serializeArray]
      omega

theorem edepth_le_serialized_length (kvs : List (String × ValueType)) :
    edepth kvs ≤ (serializeEntries kvs).length := by
  cases kvs with
  | nil => simp [edepth, serializeEntries]
  | cons kv rest =>
      obtain ⟨k, x⟩ := kv
      have h1 := vdepth_le_serialized_length x
      have h2 := edepth_le_serialized_length rest
      simp [edepth, serializeEntries]
      omega

end

/-- Modelled from the spec: total deserialization from wire form.  The fuel is
the stream length (every nesting level consumes at least one token); a decode
that leaves trailing tokens is rejected. -/
def deserializeWire (ts : List WireToken) : Option ValueType :=
  match decodeValue ts.length ts with
  | some (v, []) => some v
  | _ => none

/-- C9: for every Value — in particular every map Value such as
`{"a": 1, "b": "x"}` — serializing it to wire form and deserializing back
yields a Value structurally equal to the original; since maps are ordered
association lists, key order is preserved exactly. -/
theorem c9_value_wire_roundtrip (v : ValueType) :
    deserializeWire (serializeValue v) = some v := by
  have h := decodeValue_serializeValue v (serializeValue v).length []
    (vdepth_le_serialized_length v)
  rw [List.append_nil] at h
  simp [deserializeWire, h]

/-- C8: the lenient extraction helpers `get_string` / `get_number` /
`get_bool` (and the nested-field lookup `ValueType.getField` they project
from) are total functions of the model — they never error — and whenever the
Value has no field `k` of the matching type they return exactly the
caller-supplied default. -/
theorem c8_lenient_extraction_defaults (v : ValueType) (k : String)
    (ds : String) (dn : Int) (db : Bool) :
    (¬ hasStringField v k → get_string v k ds = ds) ∧
    (¬ hasNumberField v k → get_number v k dn = dn) ∧
    (¬ hasBoolField v k → get_bool v k db = db) :=
  ⟨get_string_default v k ds, get_number_default v k dn, get_bool_default v k db⟩

/-- Witness for C8 at concrete inputs: the payload `{"data": 7}` has no
string field `"data"`, no number field `"missing"` and no bool field
`"data"`, so each helper returns its default. -/
theorem c8_lenient_extraction_defaults_witness :
    get_string (ValueType.map [("data", ValueType.number 7)]) "data" "fallback" = "fallback" ∧
    get_number (ValueType.map [("data", ValueType.number 7)]) "missing" 42 = 42 ∧
    get_bool (ValueType.map [("data", ValueType.number 7)]) "data" true = true :=
  ⟨(c8_lenient_extraction_defaults (ValueType.map [("data", ValueType.number 7)])
      "data" "fallback" 0 false).1 (by decide),
   (c8_lenient_extraction_defaults (ValueType.map [("data", ValueType.number 7)])
      "missing" "" 42 false).2.1 (by decide),
   (c8_lenient_extraction_defaults (ValueType.map [("data", ValueType.number 7)])
      "data" "" 0 true).2.2 (by decide)⟩

/-- Response status of the request/response envelope (§3). -/
inductive ResponseStatus where
  | Success : ResponseStatus
  | Error : ResponseStatus
deriving DecidableEq

/-- Modelled from the spec: the response envelope
`ServiceResponse{status, message, data}` (§3). -/
structure ServiceResponse where
  status : ResponseStatus
  message : String
  data : Option ValueType

/-- A success response, as built by the source's `ServiceResponse::success`. -/
def ServiceResponse.success (message : String) (data : Option ValueType) : ServiceResponse :=
  ⟨.Success, message, data⟩

/-- An error response, as built by the source's `ServiceResponse::error`. -/
def ServiceResponse.error (message : String) : ServiceResponse :=
  ⟨.Error, message, none⟩

/-- Modelled from the spec (§6 handler registration input): an operation is
its declared parameter names plus a handler; the source's handlers mutate
service state, which the embedding passes explicitly, so a handler maps
(params, service state) to (response, new service state). -/
structure OperationDef where
  paramNames : List String
  run : ValueType → ValueType → ServiceResponse × ValueType

/-- Modelled from the spec (§3 Service, §6): service metadata plus its
operation table.  Paths and topics are hierarchical `/`-delimited strings;
they are embedded as their segment lists. -/
structure ServiceDef where
  name : String
  path : List String
  operations : List (String × OperationDef)

/-- A registered service together with its current internal state. -/
structure ServiceInst where
  sdef : ServiceDef
  state : ValueType

/-- Modelled from the spec (§7): the registration error. -/
inductive RegistryError where
  | DuplicatePathError : RegistryError
deriving DecidableEq

/-- Modelled from the spec (§4.2): the Registry owns path → Service, in
registration order. -/
structure Registry where
  entries : List ServiceInst

/-- Modelled from the spec (§4.2 add): fails with DuplicatePathError if the
service's path is already present, otherwise appends. -/
def Registry.add (r : Registry) (s : ServiceInst) : Except RegistryError Registry :=
  if r.entries.any (fun e => e.sdef.path == s.sdef.path) then
    .error .DuplicatePathError
  else
    .ok ⟨r.entries ++ [s]⟩

/-- Modelled from the spec (§4.2 get): read-only lookup by path. -/
def Registry.get (r : Registry) (p : List String) : Option ServiceInst :=
  r.entries.find? (fun e => e.sdef.path == p)

/-- Number of registry entries registered under a path. -/
def Registry.countPath (r : Registry) (p : List String) : Nat :=
  r.entries.countP (fun e => e.sdef.path == p)

/-- C1: if `add_service s1` succeeds then a second `add_service s2` with the
same path fails with DuplicatePathError, the registry still contains exactly
one entry for that path, and that entry is still `s1` — the second call does
not overwrite the first. -/
theorem c1_duplicate_path_rejected (r r2 : Registry) (s1 s2 : ServiceInst)
    (hpath : s1.sdef.path = s2.sdef.path)
    (hadd : r.add s1 = .ok r2) :
    r2.add s2 = .error .DuplicatePathError ∧
    r2.countPath s1.sdef.path = 1 ∧
    r2.get s1.sdef.path = some s1 := by
  unfold Registry.add at hadd
  split at hadd
  · exact absurd hadd (by simp)
  · rename_i hany
    simp only [Except.ok.injEq] at hadd
    subst hadd
    have hall : ∀ e ∈ r.entries, ¬ (e.sdef.path == s1.sdef.path) = true := by
      intro e he hbeq
      exact hany (List.any_eq_true.mpr ⟨e, he, hbeq⟩)
    refine ⟨?_, ?_, ?_⟩
    · unfold Registry.add
      rw [if_pos]
      rw [List.any_append]
      simp [hpath]
    · unfold Registry.countPath
      rw [List.countP_append]
      rw [List.countP_eq_zero.mpr hall]
      simp
    · unfold Registry.get
      rw [List.find?_append]
      rw [List.find?_eq_none.mpr hall]
      simp

/-- Witness for C1: registering two concrete services under the path
`["data"]` into the empty registry. -/
theorem c1_duplicate_path_rejected_witness :
    Registry.add ⟨[⟨⟨"data", ["data"], []⟩, .null⟩]⟩ ⟨⟨"data2", ["data"], []⟩, .null⟩ =
      .error .DuplicatePathError ∧
    Registry.countPath ⟨[⟨⟨"data", ["data"], []⟩, .null⟩]⟩ ["data"] = 1 ∧
    Registry.get ⟨[⟨⟨"data", ["data"], []⟩, .null⟩]⟩ ["data"] =
      some ⟨⟨"data", ["data"], []⟩, .null⟩ :=
  c1_duplicate_path_rejected ⟨[]⟩ ⟨[⟨⟨"data", ["data"], []⟩, .null⟩]⟩
    ⟨⟨"data", ["data"], []⟩, .null⟩ ⟨⟨"data2", ["data"], []⟩, .null⟩ rfl rfl

/-- Modelled from the spec (§3 Subscription): a subscription record —
fresh id, topic (segment list), owning service path (segment list, empty for
a direct node-level subscription), and the handler's identity (handlers are
compared by identity, so they are abstracted to a number). -/
structure Subscription where
  id : Nat
  topic : List String
  svcPath : List String
  handler : Nat
deriving DecidableEq

/-- Modelled from the spec (§4.3): the Event Bus state — the subscriber list
in subscription order (per-topic lists are its filtrations, so same-topic
order is subscription order) and the counter for fresh subscription ids. -/
structure EventBus where
  subs : List Subscription
  nextId : Nat
deriving DecidableEq

/-- The Event Bus of a freshly created Node: no subscriptions. -/
def EventBus.empty : EventBus := ⟨[], 0⟩

/-- Modelled from the spec (§4.3 subscribe): appends and returns the fresh
subscription id; duplicate subscriptions by the same handler are allowed. -/
def EventBus.subscribe (bus : EventBus) (topic : List String)
    (svcPath : List String) (handler : Nat) : EventBus × Nat :=
  (⟨bus.subs ++ [⟨bus.nextId, topic, svcPath, handler⟩], bus.nextId + 1⟩, bus.nextId)

/-- Modelled from the spec (§4.3 unsubscribe): removes the exact
(topic, id) entry; the operation is total — an absent entry makes it a
no-op, never an error. -/
def EventBus.unsubscribe (bus : EventBus) (topic : List String) (subId : Nat) : EventBus :=
  ⟨bus.subs.filter (fun s => !(s.topic == topic && s.id == subId)), bus.nextId⟩

/-- Modelled from the spec (§4.3 publish): a subscription matches a published
topic if its topic equals it exactly, or — prefix-aware resolution — if the
published topic is the subscriber's owning service path followed by its
short-form topic. -/
def topicMatches (pub : List String) (s : Subscription) : Bool :=
  s.topic == pub || s.svcPath ++ s.topic == pub

/-- The subscriptions a publish to `pub` delivers to, in subscription order. -/
def EventBus.matchedSubs (bus : EventBus) (pub : List String) : List Subscription :=
  bus.subs.filter (topicMatches pub)

/-- Modelled from the spec (§4.3 publish): the deliveries of one publish —
every matched subscription's handler invoked exactly once with the payload,
in subscription order. -/
def EventBus.publish (bus : EventBus) (pub : List String) (v : ValueType) :
    List (Nat × ValueType) :=
  (bus.matchedSubs pub).map (fun s => (s.handler, v))

/-- Subscribe a list of (handler, owning service path) pairs to one topic,
in list order. -/
def subscribeAll (bus : EventBus) (topic : List String) :
    List (Nat × List String) → EventBus
  | [] => bus
  | (h, p) :: rest => subscribeAll ((bus.subscribe topic p h).1) topic rest

theorem publish_subscribeAll (bus : EventBus) (T : List String) (v : ValueType)
    (hs : List (Nat × List String)) :
    (subscribeAll bus T hs).publish T v = bus.publish T v ++ hs.map (fun hp => (hp.1, v)) := by
  induction hs generalizing bus with
  | nil => simp [subscribeAll]
  | cons hp rest ih =>
      obtain ⟨h, p⟩ := hp
      rw [subscribeAll, ih]
      simp [EventBus.publish, EventBus.matchedSubs, EventBus.subscribe,
        List.filter_append, topicMatches]

/-- C2: for every topic `T` and handlers `h1..hn` subscribed to `T` in that
order (into any bus holding no subscription matching `T`), a single
`publish(T, v)` delivers to each `hi` exactly once with payload `v`, in
subscription order — no handler skipped, none invoked twice. -/
theorem c2_publish_subscription_order (bus0 : EventBus) (T : List String)
    (v : ValueType) (hs : List (Nat × List String))
    (hclean : ∀ s ∈ bus0.subs, topicMatches T s = false) :
    (subscribeAll bus0 T hs).publish T v = hs.map (fun hp => (hp.1, v)) := by
  rw [publish_subscribeAll]
  have hempty : bus0.publish T v = [] := by
    unfold EventBus.publish EventBus.matchedSubs
    rw [List.filter_eq_nil_iff.mpr (by intro s hsmem; simp [hclean s hsmem])]
    rfl
  simp [hempty]

/-- Witness for C2: three subscriptions, one handler twice, over a bus
already holding a subscription to an unrelated topic. -/
theorem c2_publish_subscription_order_witness :
    (subscribeAll ⟨[⟨0, ["other"], [], 9⟩], 1⟩ ["math_events"]
        [(1, []), (2, ["events"]), (1, [])]).publish ["math_events"] (.str "payload") =
      [(1, .str "payload"), (2, .str "payload"), (1, .str "payload")] :=
  c2_publish_subscription_order ⟨[⟨0, ["other"], [], 9⟩], 1⟩ ["math_events"]
    (.str "payload") [(1, []), (2, ["events"]), (1, [])] (by decide)

/-- C6: unsubscribing the same (topic, id) twice succeeds both times (the
operation is total): the first call removes at most the exact entry (every
other subscription survives and nothing is added), and the second call is a
no-op leaving the subscriber list unchanged — unsubscribe is idempotent. -/
theorem c6_unsubscribe_idempotent (bus : EventBus) (topic : List String) (subId : Nat) :
    ((bus.unsubscribe topic subId).unsubscribe topic subId = bus.unsubscribe topic subId) ∧
    (∀ s ∈ bus.subs, ¬(s.topic = topic ∧ s.id = subId) →
      s ∈ (bus.unsubscribe topic subId).subs) ∧
    (∀ s ∈ (bus.unsubscribe topic subId).subs, s ∈ bus.subs) := by
  refine ⟨?_, ?_, ?_⟩
  · unfold EventBus.unsubscribe
    simp [List.filter_filter]
  · intro s hmem hne
    unfold EventBus.unsubscribe
    simp only [List.mem_filter]
    refine ⟨hmem, ?_⟩
    simp only [Bool.not_eq_eq_eq_not, Bool.not_true, Bool.and_eq_false_imp] at *
    intro htop
    rcases Decidable.em (s.id = subId) with hid | hid
    · exact absurd ⟨by simpa using htop, hid⟩ hne
    · simp [hid]
  · intro s hmem
    exact (List.mem_filter.mp hmem).1

/-- Witness for C6 at a concrete bus: removing subscription 0 of topic
`["t"]` twice, with subscription 1 surviving. -/
theorem c6_unsubscribe_idempotent_witness :
    ((EventBus.unsubscribe ⟨[⟨0, ["t"], [], 7⟩, ⟨1, ["t"], [], 8⟩], 2⟩ ["t"] 0).unsubscribe
        ["t"] 0 =
      EventBus.unsubscribe ⟨[⟨0, ["t"], [], 7⟩, ⟨1, ["t"], [], 8⟩], 2⟩ ["t"] 0) ∧
    (⟨1, ["t"], [], 8⟩ : Subscription) ∈
      (EventBus.unsubscribe ⟨[⟨0, ["t"], [], 7⟩, ⟨1, ["t"], [], 8⟩], 2⟩ ["t"] 0).subs :=
  ⟨(c6_unsubscribe_idempotent ⟨[⟨0, ["t"], [], 7⟩, ⟨1, ["t"], [], 8⟩], 2⟩ ["t"] 0).1,
   (c6_unsubscribe_idempotent ⟨[⟨0, ["t"], [], 7⟩, ⟨1, ["t"], [], 8⟩], 2⟩ ["t"] 0).2.1
     ⟨1, ["t"], [], 8⟩ (by decide) (by decide)⟩

/-- C5: for a publish to a service-scoped topic `svc ++ evt`
(`"<service_path>/<event_name>"` in segment form, `svc` nonempty): a handler
subscribed under the fully-qualified topic receives the delivery regardless
of its owning service, while a handler subscribed under the short form `evt`
receives it if and only if its owning service path equals the publishing
prefix `svc`. -/
theorem c5_prefix_aware_resolution (svc evt : List String) (bus : EventBus)
    (sub : Subscription) (hsvc : svc ≠ []) (hmem : sub ∈ bus.subs) :
    (sub.topic = svc ++ evt → sub ∈ bus.matchedSubs (svc ++ evt)) ∧
    (sub.topic = evt → (sub ∈ bus.matchedSubs (svc ++ evt) ↔ sub.svcPath = svc)) := by
  constructor
  · intro hfull
    unfold EventBus.matchedSubs
    rw [List.mem_filter]
    exact ⟨hmem, by simp [topicMatches, hfull]⟩
  · intro hshort
    unfold EventBus.matchedSubs
    rw [List.mem_filter]
    constructor
    · rintro ⟨-, hmatch⟩
      simp only [topicMatches, hshort, Bool.or_eq_true, beq_iff_eq] at hmatch
      rcases hmatch with hexact | hpre
      · exfalso
        apply hsvc
        have hlen := congrArg List.length hexact
        simp only [List.length_append] at hlen
        have hzero : svc.length = 0 := by omega
        exact List.eq_nil_of_length_eq_zero hzero
      · exact List.append_cancel_right hpre
    · intro hp
      exact ⟨hmem, by simp [topicMatches, hshort, hp]⟩

/-- Witness for C5: publishing to `events/text_events` with three concrete
subscriptions — the fully-qualified subscriber and the short-form subscriber
owned by service `events` receive the delivery; the short-form subscriber
owned by service `data` does not. -/
theorem c5_prefix_aware_resolution_witness :
    (⟨0, ["events", "text_events"], ["other"], 10⟩ : Subscription) ∈
      EventBus.matchedSubs
        ⟨[⟨0, ["events", "text_events"], ["other"], 10⟩,
          ⟨1, ["text_events"], ["events"], 11⟩,
          ⟨2, ["text_events"], ["data"], 12⟩], 3⟩ (["events"] ++ ["text_events"]) ∧
    (⟨1, ["text_events"], ["events"], 11⟩ : Subscription) ∈
      EventBus.matchedSubs
        ⟨[⟨0, ["events", "text_events"], ["other"], 10⟩,
          ⟨1, ["text_events"], ["events"], 11⟩,
          ⟨2, ["text_events"], ["data"], 12⟩], 3⟩ (["events"] ++ ["text_events"]) ∧
    ¬ ((⟨2, ["text_events"], ["data"], 12⟩ : Subscription) ∈
      EventBus.matchedSubs
        ⟨[⟨0, ["events", "text_events"], ["other"], 10⟩,
          ⟨1, ["text_events"], ["events"], 11⟩,
          ⟨2, ["text_events"], ["data"], 12⟩], 3⟩ (["events"] ++ ["text_events"])) := by
  refine ⟨?_, ?_, ?_⟩
  · exact (c5_prefix_aware_resolution ["events"] ["text_events"]
      ⟨[⟨0, ["events", "text_events"], ["other"], 10⟩,
        ⟨1, ["text_events"], ["events"], 11⟩,
        ⟨2, ["text_events"], ["data"], 12⟩], 3⟩
      ⟨0, ["events", "text_events"], ["other"], 10⟩ (by decide) (by decide)).1 rfl
  · exact ((c5_prefix_aware_resolution ["events"] ["text_events"]
      ⟨[⟨0, ["events", "text_events"], ["other"], 10⟩,
        ⟨1, ["text_events"], ["events"], 11⟩,
        ⟨2, ["text_events"], ["data"], 12⟩], 3⟩
      ⟨1, ["text_events"], ["events"], 11⟩ (by decide) (by decide)).2 rfl).mpr rfl
  · intro hmem
    have hcontra := ((c5_prefix_aware_resolution ["events"] ["text_events"]
      ⟨[⟨0, ["events", "text_events"], ["other"], 10⟩,
        ⟨1, ["text_events"], ["events"], 11⟩,
        ⟨2, ["text_events"], ["data"], 12⟩], 3⟩
      ⟨2, ["text_events"], ["data"], 12⟩ (by decide) (by decide)).2 rfl).mp hmem
    exact absurd hcontra (by decide)

/-- Modelled from the spec (§7): the request dispatch failures. -/
inductive DispatchError where
  | ServiceNotFound : DispatchError
  | OperationNotFound : DispatchError
  | AddressFormatError : DispatchError
deriving DecidableEq

/-- Modelled from the spec (§4.4 request, §6 address syntax): split an
address into service path and operation name; the operation is the final
segment, and an address without both a service segment and an operation
segment is invalid. -/
def parseAddress (addr : List String) :
    Except DispatchError (List String × String) :=
  match addr.getLast? with
  | none => .error .AddressFormatError
  | some op =>
      if addr.length < 2 then .error .AddressFormatError
      else .ok (addr.dropLast, op)

/-- Replace the stored state of the service registered under `p`. -/
def Registry.setState (r : Registry) (p : List String) (st : ValueType) : Registry :=
  ⟨r.entries.map (fun e => if e.sdef.path == p then { e with state := st } else e)⟩

/-- True for the bare scalar payloads (bool, number, string, bytes);
null, arrays and maps are structured. -/
def ValueType.isScalar : ValueType → Bool
  | .bool _ => true
  | .number _ => true
  | .str _ => true
  | .bytes _ => true
  | _ => false

/-- Modelled from the spec (§4.4 request): a bare scalar request body is
treated as if wrapped in a single-field map when the target operation
declares exactly one parameter; all other bodies pass through unchanged. -/
def marshalParams (op : OperationDef) (v : ValueType) : ValueType :=
  match op.paramNames with
  | [p] => if v.isScalar then .map [(p, v)] else v
  | _ => v

/-- Modelled from the spec (§2, §4.4): the Node's routing state — the
Registry plus the Event Bus. -/
structure NodeState where
  registry : Registry
  bus : EventBus

/-- Modelled from the spec (§4.4 request): resolve the address; fail with
ServiceNotFound / OperationNotFound before any handler runs (dispatch errors
leave the Node state untouched); otherwise run the handler on the marshalled
params and the service's state, store the new service state, and return the
handler's response.  The result carries the outcome, the new Node state, and
the trace of handler invocations (service path, operation). -/
def NodeState.request (n : NodeState) (addr : List String) (v : ValueType) :
    Except DispatchError ServiceResponse × NodeState × List (List String × String) :=
  match parseAddress addr with
  | .error e => (.error e, n, [])
  | .ok (svcPath, opName) =>
      match n.registry.get svcPath with
      | none => (.error .ServiceNotFound, n, [])
      | some svc =>
          match svc.sdef.operations.lookup opName with
          | none => (.error .OperationNotFound, n, [])
          | some op =>
              let out := op.run (marshalParams op v) svc.state
              (.ok out.1, ⟨n.registry.setState svcPath out.2, n.bus⟩, [(svcPath, opName)])

/-- C3: `request` on an address whose service path is not registered returns
ServiceNotFound, and on a registered service lacking the operation returns
OperationNotFound; in both cases the error is returned with an empty handler
invocation trace (no handler ran) and an unchanged Node state (the Node
remains healthy). -/
theorem c3_dispatch_errors (n : NodeState) (addr : List String) (v : ValueType)
    (svcPath : List String) (opName : String)
    (hparse : parseAddress addr = .ok (svcPath, opName)) :
    (n.registry.get svcPath = none →
      n.request addr v = (.error .ServiceNotFound, n, [])) ∧
    (∀ svc, n.registry.get svcPath = some svc →
      svc.sdef.operations.lookup opName = none →
      n.request addr v = (.error .OperationNotFound, n, [])) := by
  constructor
  · intro hnone
    unfold NodeState.request
    rw [hparse]
    simp [hnone]
  · intro svc hsvc hop
    unfold NodeState.request
    rw [hparse]
    simp [hsvc, hop]

/-- The `transform` action of `DataProcessorService`
(src/macros_example_2.rs, `transform`): uppercases its `data` parameter and
returns it.  Its event publication to `events/data_events` affects neither
the response nor the service state and is elided. -/
def transformRun (params st : ValueType) : ServiceResponse × ValueType :=
  match params.getField "data" with
  | some (.str data) => (ServiceResponse.success "OK" (some (.str data.toUpper)), st)
  | _ => (ServiceResponse.error "Missing data parameter", st)

/-- The `transform` operation declares exactly one parameter, `data`
(src/macros_example_2.rs, `async fn transform(&self, context, data: &str)`). -/
def transformOp : OperationDef := ⟨["data"], transformRun⟩

/-- Two's-complement wrap of an `i32` arithmetic result into
`[-2^31, 2^31)`. -/
def wrap32 (n : Int) : Int := (n + 2 ^ 31) % 2 ^ 32 - 2 ^ 31

/-- The `increment` action of `DataProcessorService`
(src/macros_example.rs, `increment`): adds `value + 1` to the service's
counter and returns the new counter.  The service state is the counter; the
source's `i32` addition is modelled with two's-complement wrap (the
release-mode semantics of `self.counter += value + 1`; a debug build panics
at the same boundary, so in-range results agree either way). -/
def incrementRun (params st : ValueType) : ServiceResponse × ValueType :=
  match params.getField "value" with
  | some (.number value) =>
      let counter := match st with | .number c => c | _ => 0
      (ServiceResponse.success "OK" (some (.number (wrap32 (counter + value + 1)))),
        .number (wrap32 (counter + value + 1)))
  | _ => (ServiceResponse.error "Missing value parameter", st)

/-- The `increment` operation declares exactly one parameter, `value`. -/
def incrementOp : OperationDef := ⟨["value"], incrementRun⟩

/-- The `data` service of the macros examples: path `data`, operations
`transform` and `increment`, counter starting at 0
(src/macros_example.rs, `DataProcessorService::new`). -/
def dataService : ServiceInst :=
  ⟨⟨"data", ["data"], [("transform", transformOp), ("increment", incrementOp)]⟩, .number 0⟩

/-- A Node with just the `data` service registered. -/
def dataNode : NodeState := ⟨⟨[dataService]⟩, EventBus.empty⟩

/-- Witness for C3: on `dataNode`, requesting an unregistered service path
returns ServiceNotFound and requesting a missing operation of the registered
`data` service returns OperationNotFound, both with unchanged state and an
empty invocation trace. -/
theorem c3_dispatch_errors_witness :
    dataNode.request ["missing", "op"] .null =
      (.error .ServiceNotFound, dataNode, []) ∧
    dataNode.request ["data", "nope"] .null =
      (.error .OperationNotFound, dataNode, []) :=
  ⟨(c3_dispatch_errors dataNode ["missing", "op"] .null ["missing"] "op" rfl).1 rfl,
   (c3_dispatch_errors dataNode ["data", "nope"] .null ["data"] "nope" rfl).2
     dataService rfl rfl⟩

/-- C4: when the resolved operation declares exactly one parameter `p`, a
request with a bare scalar body `s` returns the same outcome — response, new
Node state and invocation trace — as the same request with body
`{p: s}`. -/
theorem c4_bare_scalar_equivalence (n : NodeState) (addr : List String)
    (s : ValueType) (svcPath : List String) (opName p : String)
    (svc : ServiceInst) (op : OperationDef)
    (hparse : parseAddress addr = .ok (svcPath, opName))
    (hsvc : n.registry.get svcPath = some svc)
    (hop : svc.sdef.operations.lookup opName = some op)
    (hparam : op.paramNames = [p])
    (hscalar : s.isScalar = true) :
    n.request addr s = n.request addr (.map [(p, s)]) := by
  unfold NodeState.request
  rw [hparse]
  simp only [hsvc, hop]
  have hmarshal : marshalParams op s = .map [(p, s)] := by
    unfold marshalParams
    rw [hparam]
    simp [hscalar]
  have hmarshal2 : marshalParams op (.map [(p, s)]) = .map [(p, s)] := by
    unfold marshalParams
    rw [hparam]
    rfl
  rw [hmarshal, hmarshal2]

/-- Witness for C4: on `dataNode`, `request("data/transform", "hello")`
equals `request("data/transform", {"data": "hello"})`. -/
theorem c4_bare_scalar_equivalence_witness :
    dataNode.request ["data", "transform"] (.str "hello") =
      dataNode.request ["data", "transform"] (.map [("data", .str "hello")]) :=
  c4_bare_scalar_equivalence dataNode ["data", "transform"] (.str "hello")
    ["data"] "transform" "data" dataService transformOp rfl rfl rfl rfl rfl

/-- C7: the `increment(value)` operation of the `data` service adds
`value + 1` to the counter and returns the new counter — whenever the `i32`
sum does not overflow (the fixed-width counter wraps at the boundary);
concretely, starting from counter 0, `request("data/increment",
{"value": 0})` returns 1 and a second identical call on the resulting Node
returns 2. -/
theorem c7_increment_scenario :
    (∀ c value : Int, -(2 ^ 31) ≤ c + value + 1 → c + value + 1 < 2 ^ 31 →
      incrementRun (.map [("value", .number value)]) (.number c) =
        (ServiceResponse.success "OK" (some (.number (c + value + 1))),
          .number (c + value + 1))) ∧
    (dataNode.request ["data", "increment"] (.map [("value", .number 0)])).1 =
      .ok (ServiceResponse.success "OK" (some (.number 1))) ∧
    ((dataNode.request ["data", "increment"]
        (.map [("value", .number 0)])).2.1.request ["data", "increment"]
        (.map [("value", .number 0)])).1 =
      .ok (ServiceResponse.success "OK" (some (.number 2))) := by
  refine ⟨?_, ?_, ?_⟩
  · intro c value hlo hhi
    have hw : wrap32 (c + value + 1) = c + value + 1 := by
      unfold wrap32
      omega
    calc incrementRun (.map [("value", .number value)]) (.number c)
        = (ServiceResponse.success "OK" (some (.number (wrap32 (c + value + 1)))),
            .number (wrap32 (c + value + 1))) := rfl
      _ = (ServiceResponse.success "OK" (some (.number (c + value + 1))),
            .number (c + value + 1)) := by rw [hw]
  · rfl
  · rfl

/-- Witness for C7: the no-overflow bounds hold for the claim's concrete
calls — counter 0, value 0 — where the handler returns counter 1. -/
theorem c7_increment_scenario_witness :
    incrementRun (.map [("value", .number 0)]) (.number 0) =
      (ServiceResponse.success "OK" (some (.number 1)), .number 1) :=
  (c7_increment_scenario.1 0 0 (by decide) (by decide)).trans (by norm_num)

namespace TaskManager

/-- A task of `TaskManagerService` (src/examples/macro_example.rs, `Task`). -/
structure Task where
  id : String
  title : String
  description : Option String
  completed : Bool
  created_at : Nat
deriving DecidableEq

/-- The task bookkeeping of `TaskManagerService`
(src/examples/macro_example.rs): the `tasks` HashMap as an association list
and the `task_count` `u32`, modelled as `Nat` reduced mod `2 ^ 32` where the
source would wrap. -/
structure State where
  tasks : List (String × Task)
  task_count : Nat
deriving DecidableEq

/-- The initial state: empty map, count 0
(`Arc::new(Mutex::new(HashMap::new()))` / `Arc::new(Mutex::new(0))`). -/
def State.initial : State := ⟨[], 0⟩

/-- `HashMap::insert` on the association list: replace the entry when the
key is present, otherwise add a new one. -/
def insertEntry (kvs : List (String × Task)) (k : String) (t : Task) :
    List (String × Task) :=
  if kvs.any (fun kv => kv.1 == k) then
    kvs.map (fun kv => if kv.1 == k then (k, t) else kv)
  else kvs ++ [(k, t)]

/-- `TaskManagerService::add_task` (src/examples/macro_example.rs, helper
`add_task`): build the task, store it under a fresh UUID, increment
`task_count`, return the task.  The fresh id from `Uuid::new_v4` is passed
in as `task_id`; `now` stands for `Self::current_timestamp()`. -/
def State.add_task (s : State) (task_id : String) (title : String)
    (description : Option String) (now : Nat) : State × Task :=
  let new_task : Task := ⟨task_id, title, description, false, now⟩
  (⟨insertEntry s.tasks task_id new_task, (s.task_count + 1) % 2 ^ 32⟩, new_task)

/-- `TaskManagerService::delete_task` (src/examples/macro_example.rs, helper
`delete_task`): if `tasks.remove(task_id)` removed an entry, decrement
`task_count` with `saturating_sub` (Nat subtraction) and report `true`;
otherwise leave everything unchanged and report `false`. -/
def State.delete_task (s : State) (task_id : String) : State × Bool :=
  if s.tasks.any (fun kv => kv.1 == task_id) then
    (⟨s.tasks.eraseP (fun kv => kv.1 == task_id), s.task_count - 1⟩, true)
  else (s, false)

/-- `TaskManagerService::handle_purge_command`
(src/examples/macro_example.rs): clears the map and resets the count to 0;
the `tasks/events/purged` publication does not touch this state. -/
def State.purge (_ : State) : State := ⟨[], 0⟩

/-- The implicit invariant of `TaskManagerService`: `task_count` equals the
number of stored tasks. -/
def State.inv (s : State) : Prop :=
  s.task_count = s.tasks.length

end TaskManager

/-- C10: `task_count = |tasks|` holds initially and is preserved by every
operation: `add_task` with a fresh UUID inserts one entry and increments the
count by 1 (the `u32` increment does not wrap while fewer than `2^32 - 1`
tasks are stored), `delete_task` decrements the count by 1 exactly when a
removal happened and otherwise changes nothing, and the purge handler clears
the map and resets the count to 0. -/
theorem c10_task_count_invariant (s : TaskManager.State)
    (task_id title : String) (description : Option String) (now : Nat) :
    TaskManager.State.initial.inv ∧
    (s.inv → s.tasks.length + 1 < 2 ^ 32 →
      (s.tasks.any (fun kv => kv.1 == task_id)) = false →
      (s.add_task task_id title description now).1.inv ∧
      (s.add_task task_id title description now).1.task_count = s.task_count + 1) ∧
    (s.inv →
      (s.delete_task task_id).1.inv ∧
      ((s.delete_task task_id).2 = true →
        (s.delete_task task_id).1.task_count + 1 = s.task_count) ∧
      ((s.delete_task task_id).2 = false → (s.delete_task task_id).1 = s)) ∧
    s.purge.inv := by
  refine ⟨rfl, ?_, ?_, rfl⟩
  · intro hinv hbound hfresh
    rw [TaskManager.State.inv] at hinv
    unfold TaskManager.State.add_task TaskManager.State.inv TaskManager.insertEntry
    refine ⟨?_, ?_⟩ <;> simp [hfresh, hinv] <;> omega
  · intro hinv
    rw [TaskManager.State.inv] at hinv
    unfold TaskManager.State.delete_task
    by_cases hany : s.tasks.any (fun kv => kv.1 == task_id) = true
    · obtain ⟨kv, hmem, hp⟩ := List.any_eq_true.mp hany
      have hlen := @List.length_eraseP_add_one _ (fun kv => kv.1 == task_id)
        s.tasks kv hmem hp
      rw [if_pos hany]
      refine ⟨?_, ?_, ?_⟩
      · unfold TaskManager.State.inv
        simp only []
        omega
      · intro _
        simp only []
        omega
      · intro hfalse
        simp at hfalse
    · rw [if_neg hany]
      exact ⟨hinv, fun h => by simp at h, fun _ => rfl⟩

/-- Witness for C10: starting from the initial state, adding a task with
fresh UUID `"t1"` preserves the invariant and sets the count to 1, and
deleting `"t1"` again preserves the invariant and reports the removal. -/
theorem c10_task_count_invariant_witness :
    (TaskManager.State.initial.add_task "t1" "Example Task 1" none 5).1.inv ∧
    (TaskManager.State.initial.add_task "t1" "Example Task 1" none 5).1.task_count = 1 ∧
    ((TaskManager.State.initial.add_task "t1" "Example Task 1" none 5).1.delete_task
      "t1").1.inv := by
  have hadd := (c10_task_count_invariant TaskManager.State.initial "t1"
    "Example Task 1" none 5).2.1 rfl (by decide) rfl
  have hdel := ((c10_task_count_invariant
    (TaskManager.State.initial.add_task "t1" "Example Task 1" none 5).1 "t1"
    "Example Task 1" none 5).2.2.1 hadd.1).1
  exact ⟨hadd.1, hadd.2, hdel⟩
